import Mathlib

/-!
Shallow embedding of the KhalidAI spoken-English tutoring client
(`src/App.tsx`, `src/types.ts`, `src/constants.ts`, and the service module
under `src/unnamed/part_000`).

Samples are modelled as rationals: `Float32Array` elements are read exactly
into doubles, and multiplication by the power of two `32768` is exact, so
the wire conversion factors through exact rational arithmetic.  Machine
16-bit stores go through explicit truncation and `% 2^16` wrapping
(ECMAScript `ToInt16`).  Base64 transport (`encode` / `decode` in the
source) is a bijection on byte arrays and is modelled as the identity on
the underlying sample lists.
-/

/-- Truncation toward zero of a rational, the integer conversion step of
ECMAScript `ToIntegerOrInfinity` applied to a finite number. -/
def truncQ (q : ℚ) : ℤ := if 0 ≤ q then ⌊q⌋ else ⌈q⌉

/-- Wrap an integer into the signed 16-bit range the way an `Int16Array`
store does: reduce modulo `2^16`, then reinterpret as two's complement. -/
def toInt16 (n : ℤ) : ℤ :=
  if n % 65536 < 32768 then n % 65536 else n % 65536 - 65536

/-- One sample of `createBlob` (src/App.tsx line 65):
`int16[i] = data[i] * 32768` — an `Int16Array` store applies `ToInt16`,
i.e. truncation toward zero followed by 16-bit wrapping. -/
def encodeSample (s : ℚ) : ℤ := toInt16 (truncQ (s * 32768))

/-- One sample of `decodeAudioData` (src/App.tsx line 58):
`channelData[i] = dataInt16[i * numChannels + channel] / 32768.0`. -/
def decodeSample (v : ℤ) : ℚ := (v : ℚ) / 32768

/-- The encoded blob of `createBlob` (src/App.tsx lines 63-67): the sample
data (base64 transport elided, it is a bijection) plus the MIME tag. -/
structure EncodedBlob where
  data : List ℤ
  mimeType : String
  deriving Repr, DecidableEq

/-- `createBlob` (src/App.tsx lines 63-67) over a whole capture frame. -/
def createBlob (data : List ℚ) : EncodedBlob :=
  { data := data.map encodeSample, mimeType := "audio/pcm;rate=16000" }

/-- The conversion the spec describes for `createBlob`: round to nearest
and clamp into the signed 16-bit range.  Written from the spec's words, to
be compared against `encodeSample`, which is written from the source. -/
def specEncodeSample (s : ℚ) : ℤ :=
  max (-32768) (min 32767 (round (s * 32768)))

/-- One enqueue step of the playback scheduler (src/App.tsx lines 172-173):
`nextStartTimeRef.current = Math.max(nextStartTimeRef.current, outCtx.currentTime);
src.start(nextStartTimeRef.current); nextStartTimeRef.current += buf.duration;`
Given the cursor, the output-clock reading `now` and the buffer duration
`dur`, returns the scheduled start time and the new cursor. -/
def scheduleChunk (cursor now dur : ℚ) : ℚ × ℚ :=
  let start := max cursor now
  (start, start + dur)

/-- The (start, duration) pairs scheduled for a sequence of inbound chunks,
each given as a (clock reading at arrival, buffer duration) pair, threading
the cursor exactly as the `onmessage` audio branch does. -/
def schedStarts (cursor : ℚ) : List (ℚ × ℚ) → List (ℚ × ℚ)
  | [] => []
  | (now, dur) :: rest =>
    (max cursor now, dur) :: schedStarts (max cursor now + dur) rest

/-- The cursor after scheduling a sequence of inbound chunks. -/
def schedFinal (cursor : ℚ) : List (ℚ × ℚ) → ℚ
  | [] => cursor
  | (now, dur) :: rest => schedFinal (max cursor now + dur) rest

/-- Speaker role of a chat `Message` (src/types.ts): `'user' | 'model'`. -/
inductive Role where
  | user : Role
  | model : Role
  deriving Repr, DecidableEq

/-- A chat `Message` (src/types.ts): role, text and display timestamp. -/
structure Message where
  role : Role
  text : String
  timestamp : String
  deriving Repr, DecidableEq

/-- `currentTranscriptionRef.current` (src/App.tsx line 94): the two
per-turn transcript buffers. -/
structure Transcription where
  input : String
  output : String
  deriving Repr, DecidableEq

/-- Lifecycle of an `AudioContext` held in a ref: `running` after
construction, `closed` after `close()`. -/
inductive CtxState where
  | running : CtxState
  | closed : CtxState
  deriving Repr, DecidableEq

/-- The mutable state of the live-session machinery in `App`
(src/App.tsx lines 75-94): the message log, the `isLive` / `loading`
flags, the session / audio-context refs, the playback cursor, the active
playback sources (modelled by their scheduled start times), the transcript
buffers, and the list of alerts shown to the user. -/
structure AppState where
  messages : List Message
  isLive : Bool
  loading : Bool
  liveSession : Option Unit
  ctxIn : Option CtxState
  ctxOut : Option CtxState
  nextStartTime : ℚ
  activeSources : List ℚ
  transcription : Transcription
  alerts : List String
  deriving Repr, DecidableEq

/-- The state produced by the `useState` / `useRef` initializers
(src/App.tsx lines 75-94): nothing started, empty log, empty buffers. -/
def initialAppState : AppState :=
  { messages := []
    isLive := false
    loading := false
    liveSession := none
    ctxIn := none
    ctxOut := none
    nextStartTime := 0
    activeSources := []
    transcription := { input := "", output := "" }
    alerts := [] }

/-- Effect of `close()` on an audio-context ref: closes the context if one
was ever created; the ref itself is not nulled by the source. -/
def closeCtx : Option CtxState → Option CtxState
  | none => none
  | some _ => some .closed

/-- `stopLiveSession` (src/App.tsx lines 129-136): close and null the
session ref if present, stop every active source and clear the set, set
`isLive` to false, and close each audio context that exists.  The
transcript buffers, message log, alerts, loading flag and playback cursor
are not touched. -/
def stopLiveSession (s : AppState) : AppState :=
  { s with
    liveSession := none
    activeSources := []
    isLive := false
    ctxIn := closeCtx s.ctxIn
    ctxOut := closeCtx s.ctxOut }

/-- One `LiveServerMessage` as consumed by the `onmessage` callback
(src/App.tsx lines 160-175): optional input/output transcription deltas, a
turn-complete flag, and optional inline audio data (decoded from base64 to
16-bit samples; the base64 layer is a bijection and is elided). -/
structure ServerMessage where
  inputTranscription : Option String
  outputTranscription : Option String
  turnComplete : Bool
  audioData : Option (List ℤ)

/-- The turn-complete branch of `onmessage` (src/App.tsx lines 163-167):
if either buffer is non-empty (JS truthiness of `input || output`), append
a user message then a model message to the log; in every case reset both
buffers.  `ts` is the emission-time timestamp string. -/
def flushTurn (t : Transcription) (msgs : List Message) (ts : String) :
    List Message × Transcription :=
  (if t.input ≠ "" ∨ t.output ≠ "" then
    msgs ++ [{ role := .user, text := t.input, timestamp := ts },
             { role := .model, text := t.output, timestamp := ts }]
  else msgs, { input := "", output := "" })

/-- The `onmessage` callback (src/App.tsx lines 160-175): accumulate
transcription deltas in arrival order, flush on turn-complete, then decode
and schedule inline audio (24 kHz mono, duration = frameCount / 24000),
recording the source in the active set.  `now` is the output clock
(`outCtx.currentTime`) and `ts` the wall-clock timestamp string. -/
def onMessage (s : AppState) (m : ServerMessage) (now : ℚ) (ts : String) :
    AppState :=
  let s1 := match m.inputTranscription with
    | some d => { s with transcription :=
        { s.transcription with input := s.transcription.input ++ d } }
    | none => s
  let s2 := match m.outputTranscription with
    | some d => { s1 with transcription :=
        { s1.transcription with output := s1.transcription.output ++ d } }
    | none => s1
  let s3 := if m.turnComplete then
      let (msgs, t) := flushTurn s2.transcription s2.messages ts
      { s2 with messages := msgs, transcription := t }
    else s2
  match m.audioData with
  | some samples =>
    let dur : ℚ := (samples.length : ℚ) / 24000
    let (start, cursor) := scheduleChunk s3.nextStartTime now dur
    { s3 with nextStartTime := cursor,
              activeSources := s3.activeSources ++ [start] }
  | none => s3

/-- The `onerror` callback (src/App.tsx line 177): `(e) => stopLiveSession()`. -/
def onErrorCb (s : AppState) : AppState := stopLiveSession s

/-- The `onclose` callback (src/App.tsx line 178): `() => stopLiveSession()`. -/
def onCloseCb (s : AppState) : AppState := stopLiveSession s

/-- `startLiveSession` (src/App.tsx lines 138-189) up to the point the
connection is handed back: set `loading`; if `getUserMedia` rejects
(microphone denied) the catch clause runs — clear `loading` and alert —
and nothing after the failed await executes.  If it resolves, both audio
contexts are created, the cursor is zeroed and the connection is opened
(`isLive` is only set later, by the `onopen` callback). -/
def startLiveSession (s : AppState) (micGranted : Bool) : AppState :=
  let s0 := { s with loading := true }
  if micGranted then
    { s0 with
      ctxIn := some .running
      ctxOut := some .running
      nextStartTime := 0
      liveSession := some () }
  else
    { s0 with
      loading := false
      alerts := s0.alerts ++ ["Microphone access is required for voice sessions."] }

/-- Result shape of `getPronunciationScore` (service module,
src/unnamed/part_000): `{score: number, feedback: string[]}`. -/
structure PronunciationResult where
  score : ℚ
  feedback : List String
  deriving Repr, DecidableEq

/-- The catch-clause fallback of `getPronunciationScore`
(src/unnamed/part_000 line 71): `{score: 0, feedback: ["Unable to analyze
at this moment."]}`. -/
def pronunciationFallback : PronunciationResult :=
  { score := 0, feedback := ["Unable to analyze at this moment."] }

/-- `getPronunciationScore` (src/unnamed/part_000 lines 51-72): perform
the request inside a try block and `JSON.parse` the response text; both
the transport call and the parse throw into the same catch, which returns
the fallback.  `response` is the transport outcome (error or response
text) and `parse` the outcome of `JSON.parse` on each text. -/
def getPronunciationScore (response : Except Unit String)
    (parse : String → Except Unit PronunciationResult) : PronunciationResult :=
  match response with
  | .error _ => pronunciationFallback
  | .ok txt =>
    match parse txt with
    | .ok r => r
    | .error _ => pronunciationFallback

/-- A persisted history item as read back from storage: `synced` may be
absent (`none`) in old blobs. -/
structure StoredHistoryItem where
  mode : String
  score : Option ℚ
  timestamp : String
  synced : Option Bool
  deriving Repr, DecidableEq

/-- A `HistoryItem` (src/types.ts) held in live state: `synced` present. -/
structure HistoryItem where
  mode : String
  score : Option ℚ
  timestamp : String
  synced : Bool
  deriving Repr, DecidableEq

/-- `UserProgress` (src/types.ts). -/
structure UserProgress where
  totalAttempts : ℕ
  currentDay : ℕ
  scores : List ℚ
  history : List HistoryItem
  deriving Repr, DecidableEq

/-- The parsed shape of the persisted `khalidai_progress` blob. -/
structure StoredProgress where
  totalAttempts : ℕ
  currentDay : ℕ
  scores : List ℚ
  history : List StoredHistoryItem
  deriving Repr, DecidableEq

/-- The `useState` initializer for `progress` (src/App.tsx lines 81-86). -/
def initialProgress : UserProgress :=
  { totalAttempts := 0, currentDay := 1, scores := [], history := [] }

/-- The per-item normalization in the load effect (src/App.tsx line 102):
`(h) => ({ ...h, synced: h.synced ?? true })` — `??` replaces only a
missing value, an explicit `false` survives. -/
def normalizeItem (h : StoredHistoryItem) : HistoryItem :=
  { mode := h.mode
    score := h.score
    timestamp := h.timestamp
    synced := h.synced.getD true }

/-- The progress-load effect (src/App.tsx lines 98-108): if the storage
key is present, parse it, normalize each history item's `synced` flag and
install it; if absent, keep the initial progress and show the first-run
guide.  Returns the resulting progress and the `showGuide` flag. -/
def loadProgress (saved : Option StoredProgress) : UserProgress × Bool :=
  match saved with
  | some p =>
    ({ totalAttempts := p.totalAttempts
       currentDay := p.currentDay
       scores := p.scores
       history := p.history.map normalizeItem }, false)
  | none => (initialProgress, true)

/-- `unsyncedCount` (src/App.tsx line 96):
`progress.history.filter(h => !h.synced).length`. -/
def unsyncedCount (p : UserProgress) : ℕ :=
  (p.history.filter (fun h => !h.synced)).length

/-- A `LiveServerMessage` carrying only the turn-complete marker. -/
def turnCompleteOnly : ServerMessage :=
  { inputTranscription := none
    outputTranscription := none
    turnComplete := true
    audioData := none }

/-- A concrete stored progress blob used to exercise the load path: one
history item without a `synced` flag and one stored with `synced = false`. -/
def storedSample : StoredProgress :=
  { totalAttempts := 1
    currentDay := 2
    scores := []
    history :=
      [{ mode := "chat", score := none, timestamp := "a", synced := none },
       { mode := "chat", score := none, timestamp := "b", synced := some false }] }

/-! ### Helper lemmas on the sample conversion -/

lemma truncQ_mono {x y : ℚ} (h : x ≤ y) : truncQ x ≤ truncQ y := by
  unfold truncQ
  split <;> split
  · exact Int.floor_le_floor h
  · rename_i hx hy
    exact absurd (hx.trans h) hy
  · rename_i hx hy
    have h1 : ⌈x⌉ ≤ 0 :=
      Int.ceil_le.mpr (by exact_mod_cast le_of_lt (lt_of_not_ge hx))
    have h2 : 0 ≤ ⌊y⌋ := Int.floor_nonneg.mpr hy
    omega
  · exact Int.ceil_le_ceil h

lemma truncQ_lb {q : ℚ} (h : -32768 ≤ q) : -32768 ≤ truncQ q := by
  unfold truncQ
  split
  · rename_i hq
    have : 0 ≤ ⌊q⌋ := Int.floor_nonneg.mpr hq
    omega
  · have hc : ((-32768 : ℤ) : ℚ) ≤ q := by exact_mod_cast h
    calc (-32768 : ℤ) = ⌈((-32768 : ℤ) : ℚ)⌉ := (Int.ceil_intCast _).symm
      _ ≤ ⌈q⌉ := Int.ceil_le_ceil hc

lemma truncQ_ub {q : ℚ} (h : q < 32768) : truncQ q ≤ 32767 := by
  unfold truncQ
  split
  · have hc : q < ((32768 : ℤ) : ℚ) := by exact_mod_cast h
    have : ⌊q⌋ < 32768 := Int.floor_lt.mpr hc
    omega
  · rename_i hq
    have : ⌈q⌉ ≤ 0 :=
      Int.ceil_le.mpr (by exact_mod_cast le_of_lt (lt_of_not_ge hq))
    omega

lemma toInt16_eq_self {n : ℤ} (h1 : -32768 ≤ n) (h2 : n ≤ 32767) :
    toInt16 n = n := by
  unfold toInt16
  split <;> omega

lemma encodeSample_eq_truncQ {s : ℚ} (h1 : -1 ≤ s) (h2 : s < 1) :
    encodeSample s = truncQ (s * 32768) ∧
    -32768 ≤ truncQ (s * 32768) ∧ truncQ (s * 32768) ≤ 32767 := by
  have hl : (-32768 : ℚ) ≤ s * 32768 := by nlinarith
  have hu : s * 32768 < 32768 := by nlinarith
  have lb := truncQ_lb hl
  have ub := truncQ_ub hu
  exact ⟨toInt16_eq_self lb ub, lb, ub⟩

/-! ### Claims C2 and C6: the capture-side sample conversion -/

/-- Claim C2, counterexample.  The claim says `createBlob` maps each sample
`s` of `[-1,1]` to `round(s * 32768)` clamped into `[-32768, 32767]`.  The
source stores `data[i] * 32768` into an `Int16Array`, which truncates
toward zero and wraps modulo `2^16`: at `s = 1` the code wraps to `-32768`
while the claimed conversion clamps to `32767`, and at `s = 1/65536` the
code truncates `1/2` to `0` while the claimed conversion rounds it to `1`. -/
theorem claim_capture_conversion_counterexample :
    encodeSample 1 = -32768 ∧ specEncodeSample 1 = 32767 ∧
    encodeSample (1/65536) = 0 ∧ specEncodeSample (1/65536) = 1 := by
  refine ⟨?_, ?_, ?_, ?_⟩
  · norm_num [encodeSample, truncQ, toInt16]
  · norm_num [specEncodeSample, round_eq]
  · norm_num [encodeSample, truncQ, toInt16]
  · norm_num [specEncodeSample, round_eq]

/-- Claim C2, amended: for every sample `s` with `-1 ≤ s < 1`, the
capture-side conversion maps `s` to `s * 32768` truncated toward zero; the
result already lies in the signed 16-bit range, so the `2^16` wrap is the
identity and no clamping occurs.  (At `s = 1` the product `32768` wraps to
`-32768` instead of clamping; see the counterexample.) -/
theorem claim_capture_conversion_trunc (s : ℚ) (h1 : -1 ≤ s) (h2 : s < 1) :
    encodeSample s = truncQ (s * 32768) ∧
    -32768 ≤ encodeSample s ∧ encodeSample s ≤ 32767 := by
  obtain ⟨he, lb, ub⟩ := encodeSample_eq_truncQ h1 h2
  exact ⟨he, he ▸ lb, he ▸ ub⟩

/-- Witness for the amended claim C2 at the concrete sample `-3/4`. -/
theorem claim_capture_conversion_trunc_witness :
    encodeSample (-3/4) = truncQ ((-3/4) * 32768) ∧
    -32768 ≤ encodeSample (-3/4) ∧ encodeSample (-3/4) ≤ 32767 :=
  claim_capture_conversion_trunc (-3/4) (by norm_num) (by norm_num)

/-- Claim C6, counterexample.  The claim asserts monotonicity of the
encoding over all of `[-1,1]`: `s1 < s2 → encoded(s1) ≤ encoded(s2)`.  At
`s1 = 0`, `s2 = 1` (both in `[-1,1]`) the encoding of `1` wraps to
`-32768`, strictly below the encoding `0` of `0`. -/
theorem claim_roundtrip_monotone_counterexample :
    ((-1 : ℚ) ≤ 0 ∧ (0 : ℚ) < 1 ∧ (1 : ℚ) ≤ 1) ∧
    ¬ encodeSample 0 ≤ encodeSample 1 := by
  refine ⟨by norm_num, ?_⟩
  have h0 : encodeSample 0 = 0 := by norm_num [encodeSample, truncQ, toInt16]
  have h1 : encodeSample 1 = -32768 := by norm_num [encodeSample, truncQ, toInt16]
  rw [h0, h1]
  norm_num

/-- Claim C6, amended: encoding the sample `1/2` and decoding it back
yields a value within `1/32768` of `1/2` (here the quantization error is
zero), and the encoding is monotone on `[-1, 1)`: the wrap-around at the
right endpoint `s = 1` is the only violation of monotonicity on `[-1,1]`. -/
theorem claim_roundtrip_monotone (s1 s2 : ℚ)
    (ha : -1 ≤ s1) (hb : s1 < s2) (hc : s2 < 1) :
    |decodeSample (encodeSample (1/2)) - 1/2| ≤ 1/32768 ∧
    encodeSample s1 ≤ encodeSample s2 := by
  constructor
  · have : decodeSample (encodeSample (1/2)) = 1/2 := by
      norm_num [decodeSample, encodeSample, truncQ, toInt16]
    rw [this]
    norm_num
  · have h1 := encodeSample_eq_truncQ ha (hb.trans hc)
    have h2 := encodeSample_eq_truncQ (le_of_lt (lt_of_le_of_lt ha hb)) hc
    rw [h1.1, h2.1]
    exact truncQ_mono (by nlinarith)

/-- Witness for the amended claim C6 at the samples `-1/4 < 1/2`. -/
theorem claim_roundtrip_monotone_witness :
    |decodeSample (encodeSample (1/2)) - 1/2| ≤ 1/32768 ∧
    encodeSample (-1/4) ≤ encodeSample (1/2) :=
  claim_roundtrip_monotone (-1/4) (1/2) (by norm_num) (by norm_num) (by norm_num)

/-! ### Helper lemmas on the playback scheduler -/

lemma schedFinal_append (c : ℚ) (l1 l2 : List (ℚ × ℚ)) :
    schedFinal c (l1 ++ l2) = schedFinal (schedFinal c l1) l2 := by
  induction l1 generalizing c with
  | nil => rfl
  | cons hd tl ih =>
    obtain ⟨now, dur⟩ := hd
    simp only [List.cons_append, schedFinal]
    exact ih _

lemma le_schedFinal (c : ℚ) (l : List (ℚ × ℚ)) (h : ∀ e ∈ l, 0 ≤ e.2) :
    c ≤ schedFinal c l := by
  induction l generalizing c with
  | nil => exact le_refl c
  | cons hd tl ih =>
    obtain ⟨now, dur⟩ := hd
    have hdur : 0 ≤ dur := h (now, dur) (by simp)
    have h1 : c ≤ max c now + dur := by
      have := le_max_left c now
      linarith
    simp only [schedFinal]
    exact h1.trans (ih _ (fun e he => h e (by simp [he])))

lemma schedStarts_head_le (c : ℚ) (l : List (ℚ × ℚ)) :
    ∀ p ∈ (schedStarts c l).head?, c ≤ p.1 := by
  cases l with
  | nil => simp [schedStarts]
  | cons hd tl =>
    obtain ⟨now, dur⟩ := hd
    simp only [schedStarts, List.head?_cons, Option.mem_some_iff]
    intro p hp
    subst hp
    exact le_max_left c now

lemma schedStarts_chain (c : ℚ) (l : List (ℚ × ℚ)) :
    List.Chain' (fun a b => a.1 + a.2 ≤ b.1) (schedStarts c l) := by
  induction l generalizing c with
  | nil => simp [schedStarts]
  | cons hd tl ih =>
    obtain ⟨now, dur⟩ := hd
    simp only [schedStarts]
    rw [List.chain'_cons']
    refine ⟨fun y hy => ?_, ih _⟩
    exact schedStarts_head_le (max c now + dur) tl y hy

/-! ### Claim C1: the playback scheduler never overlaps chunks -/

/-- Claim C1: each inbound chunk is scheduled to start at
`max(cursor, clock)` and the cursor then advances by the chunk's duration
(the first conjunct is the step equation, the fourth ties it to the
`onmessage` audio branch); consequently the cursor is non-decreasing
across any prefix of the enqueue sequence, and consecutive scheduled
chunks never overlap: each start is at least the previous start plus the
previous duration. -/
theorem claim_playback_scheduler (c : ℚ) (evs : List (ℚ × ℚ))
    (hdur : ∀ e ∈ evs, 0 ≤ e.2) :
    (∀ now dur, scheduleChunk c now dur = (max c now, max c now + dur)) ∧
    (∀ pre suf, evs = pre ++ suf → schedFinal c pre ≤ schedFinal c evs) ∧
    List.Chain' (fun a b => a.1 + a.2 ≤ b.1) (schedStarts c evs) ∧
    (∀ (s : AppState) (samples : List ℤ) (now : ℚ) (ts : String),
      (onMessage s { inputTranscription := none, outputTranscription := none,
                     turnComplete := false, audioData := some samples } now ts).nextStartTime
        = max s.nextStartTime now + (samples.length : ℚ) / 24000 ∧
      (onMessage s { inputTranscription := none, outputTranscription := none,
                     turnComplete := false, audioData := some samples } now ts).activeSources
        = s.activeSources ++ [max s.nextStartTime now]) := by
  refine ⟨fun now dur => rfl, ?_, schedStarts_chain c evs, fun s samples now ts => ⟨rfl, rfl⟩⟩
  intro pre suf hsplit
  subst hsplit
  rw [schedFinal_append]
  exact le_schedFinal _ suf (fun e he => hdur e (by simp [he]))

/-- Witness for claim C1 on the concrete enqueue sequence
`[(clock 0, duration 2), (clock 5, duration 3)]` from cursor `1`. -/
theorem claim_playback_scheduler_witness :
    schedFinal (1 : ℚ) [((0 : ℚ), (2 : ℚ))] ≤
      schedFinal (1 : ℚ) [((0 : ℚ), (2 : ℚ)), ((5 : ℚ), (3 : ℚ))] ∧
    List.Chain' (fun a b => a.1 + a.2 ≤ b.1)
      (schedStarts (1 : ℚ) [((0 : ℚ), (2 : ℚ)), ((5 : ℚ), (3 : ℚ))]) := by
  have h := claim_playback_scheduler 1 [((0 : ℚ), (2 : ℚ)), ((5 : ℚ), (3 : ℚ))]
    (by intro e he; simp at he; rcases he with h | h <;> rw [h] <;> norm_num)
  exact ⟨h.2.1 [((0 : ℚ), (2 : ℚ))] [((5 : ℚ), (3 : ℚ))] rfl, h.2.2.1⟩

/-! ### Claim C3: stop is idempotent and total -/

/-- Claim C3: `stopLiveSession` is a total function on states (modelled
states include "never started"), calling it twice equals calling it once,
each call nulls the session ref, clears the active playback set, closes
whichever audio contexts exist, and leaves `isLive = false`; calling it on
the never-started initial state is a no-op. -/
theorem claim_stop_idempotent (s : AppState) :
    stopLiveSession (stopLiveSession s) = stopLiveSession s ∧
    (stopLiveSession s).isLive = false ∧
    (stopLiveSession s).activeSources = [] ∧
    (stopLiveSession s).liveSession = none ∧
    (stopLiveSession s).ctxIn = closeCtx s.ctxIn ∧
    (stopLiveSession s).ctxOut = closeCtx s.ctxOut ∧
    stopLiveSession initialAppState = initialAppState := by
  refine ⟨?_, rfl, rfl, rfl, rfl, rfl, rfl⟩
  obtain ⟨msgs, live, load, sess, cin, cout, nst, act, tr, al⟩ := s
  cases cin <;> cases cout <;> rfl

/-! ### Claim C7: stop and the transcript buffers -/

/-- Claim C7, counterexample.  The claim says `stop()` leaves the
transcript buffers empty so unflushed text cannot reach a later turn.  In
the source `stopLiveSession` never touches `currentTranscriptionRef`: from
a live state holding unflushed input text `"Hello "`, the buffers after
stop still hold `"Hello "`, and a turn-complete arriving in a later
session flushes that stale text into the message log. -/
theorem claim_stop_discards_transcript_counterexample :
    (stopLiveSession { initialAppState with
        isLive := true, liveSession := some (),
        transcription := { input := "Hello ", output := "" } }).transcription
      ≠ { input := "", output := "" } ∧
    (onMessage (stopLiveSession { initialAppState with
        isLive := true, liveSession := some (),
        transcription := { input := "Hello ", output := "" } })
        turnCompleteOnly 0 "t").messages
      = [{ role := .user, text := "Hello ", timestamp := "t" },
         { role := .model, text := "", timestamp := "t" }] := by
  constructor
  · intro h
    have : "Hello " = "" := congrArg Transcription.input h
    simp at this
  · rfl

/-- Claim C7, amended: `stop()` promotes nothing to the message log, but
it also does **not** clear the per-turn transcript buffers — they keep
their unflushed text, which the first turn-complete of a later session
will flush into that turn's message pair. -/
theorem claim_stop_keeps_transcript (s : AppState) :
    (stopLiveSession s).messages = s.messages ∧
    (stopLiveSession s).transcription = s.transcription :=
  ⟨rfl, rfl⟩

/-! ### Claim C8: remote error/close equal explicit stop -/

/-- Claim C8: the `onerror` and `onclose` callbacks perform exactly the
teardown of an explicit `stopLiveSession` call — they are the same state
transformer — and afterwards no connection is present and the session is
not live (no reconnection is initiated). -/
theorem claim_remote_error_close_teardown (s : AppState) :
    onErrorCb s = stopLiveSession s ∧
    onCloseCb s = stopLiveSession s ∧
    (onErrorCb s).liveSession = none ∧
    (onCloseCb s).liveSession = none ∧
    (onErrorCb s).isLive = false ∧
    (onCloseCb s).isLive = false :=
  ⟨rfl, rfl, rfl, rfl, rfl, rfl⟩

/-! ### Claim C4: turn-complete flush -/

/-- Claim C4: on a turn-complete signal, if at least one per-turn buffer
is non-empty the handler appends exactly two messages — the user message
with the accumulated input, then the model message with the accumulated
output; if both buffers are empty it appends nothing; in both cases both
buffers are reset to empty. -/
theorem claim_turn_flush (s : AppState) (now : ℚ) (ts : String) :
    (s.transcription.input ≠ "" ∨ s.transcription.output ≠ "" →
      (onMessage s turnCompleteOnly now ts).messages =
        s.messages ++
          [{ role := .user, text := s.transcription.input, timestamp := ts },
           { role := .model, text := s.transcription.output, timestamp := ts }]) ∧
    (s.transcription.input = "" → s.transcription.output = "" →
      (onMessage s turnCompleteOnly now ts).messages = s.messages) ∧
    (onMessage s turnCompleteOnly now ts).transcription =
      { input := "", output := "" } := by
  have hred : onMessage s turnCompleteOnly now ts =
      { s with messages := (flushTurn s.transcription s.messages ts).1,
               transcription := (flushTurn s.transcription s.messages ts).2 } := rfl
  refine ⟨?_, ?_, ?_⟩
  · intro h
    rw [hred]
    simp only [flushTurn]
    rw [if_pos h]
  · intro h1 h2
    rw [hred]
    simp only [flushTurn]
    rw [if_neg (by simp [h1, h2])]
  · rw [hred]
    rfl

/-- Witness for claim C4 at the buffers `("Hello world", "Hi!")` of the
spec's worked example, with an empty prior log. -/
theorem claim_turn_flush_witness :
    (onMessage { initialAppState with
        transcription := { input := "Hello world", output := "Hi!" } }
        turnCompleteOnly 0 "t").messages =
      [{ role := .user, text := "Hello world", timestamp := "t" },
       { role := .model, text := "Hi!", timestamp := "t" }] ∧
    (onMessage { initialAppState with
        transcription := { input := "Hello world", output := "Hi!" } }
        turnCompleteOnly 0 "t").transcription = { input := "", output := "" } := by
  have h := claim_turn_flush
    { initialAppState with
        transcription := { input := "Hello world", output := "Hi!" } } 0 "t"
  exact ⟨h.1 (Or.inl (by decide)), h.2.2⟩

/-! ### Claim C9: microphone denial leaves no partial session -/

/-- Claim C9: when `getUserMedia` rejects during `startLiveSession` from
an idle state, the catch clause surfaces a user-visible alert, `loading`
is reset, and no partial session is left: `isLive` stays false and no
audio context or remote connection was allocated. -/
theorem claim_mic_denied_no_partial_session (s : AppState)
    (h1 : s.isLive = false) (h2 : s.ctxIn = none) (h3 : s.ctxOut = none)
    (h4 : s.liveSession = none) :
    (startLiveSession s false).isLive = false ∧
    (startLiveSession s false).loading = false ∧
    (startLiveSession s false).ctxIn = none ∧
    (startLiveSession s false).ctxOut = none ∧
    (startLiveSession s false).liveSession = none ∧
    (startLiveSession s false).alerts =
      s.alerts ++ ["Microphone access is required for voice sessions."] :=
  ⟨h1, rfl, h2, h3, h4, rfl⟩

/-- Witness for claim C9 from the never-started initial state. -/
theorem claim_mic_denied_witness :
    (startLiveSession initialAppState false).isLive = false ∧
    (startLiveSession initialAppState false).loading = false ∧
    (startLiveSession initialAppState false).ctxIn = none ∧
    (startLiveSession initialAppState false).ctxOut = none ∧
    (startLiveSession initialAppState false).liveSession = none ∧
    (startLiveSession initialAppState false).alerts =
      initialAppState.alerts ++
        ["Microphone access is required for voice sessions."] :=
  claim_mic_denied_no_partial_session initialAppState rfl rfl rfl rfl

/-! ### Claim C5: pronunciation scoring fails closed -/

/-- Claim C5: `getPronunciationScore` is a total function — a transport
error and a parse error are both caught — and on either failure it
returns exactly the fallback `{score: 0, feedback: ["Unable to analyze at
this moment."]}`, whose feedback list holds a single non-empty string. -/
theorem claim_pronunciation_fail_closed (response : Except Unit String)
    (parse : String → Except Unit PronunciationResult) :
    (response = .error () → getPronunciationScore response parse = pronunciationFallback) ∧
    (∀ txt, response = .ok txt → parse txt = .error () →
      getPronunciationScore response parse = pronunciationFallback) ∧
    pronunciationFallback.score = 0 ∧
    pronunciationFallback.feedback.length = 1 ∧
    ∀ f ∈ pronunciationFallback.feedback, f ≠ "" := by
  refine ⟨?_, ?_, rfl, rfl, ?_⟩
  · intro h
    subst h
    rfl
  · intro txt h hp
    subst h
    simp [getPronunciationScore, hp]
  · intro f hf
    simp only [pronunciationFallback, List.mem_singleton] at hf
    subst hf
    decide

/-- Witness for claim C5: a failing transport call returns the zero-score
fallback. -/
theorem claim_pronunciation_fail_closed_witness :
    getPronunciationScore (.error ()) (fun _ => .error ()) = pronunciationFallback ∧
    pronunciationFallback.score = 0 :=
  ⟨(claim_pronunciation_fail_closed (.error ()) (fun _ => .error ())).1 rfl,
   (claim_pronunciation_fail_closed (.error ()) (fun _ => .error ())).2.2.1⟩

/-! ### Claim C10: persisted progress load -/

/-- Claim C10: loading a stored blob normalizes each history item's
`synced` flag with `?? true` — a missing flag becomes `true`, an explicit
flag survives, so exactly the items stored with `synced = false` are
counted unsynced — while a missing storage key keeps the initial progress
`{totalAttempts: 0, currentDay: 1, scores: [], history: []}` and shows the
first-run guide. -/
theorem claim_progress_load (p : StoredProgress) :
    (loadProgress (some p)).1.history = p.history.map normalizeItem ∧
    (∀ h : StoredHistoryItem, h.synced = none → (normalizeItem h).synced = true) ∧
    (∀ (h : StoredHistoryItem) (b : Bool), h.synced = some b → (normalizeItem h).synced = b) ∧
    unsyncedCount (loadProgress (some p)).1 =
      (p.history.filter (fun h => h.synced == some false)).length ∧
    loadProgress none = (initialProgress, true) ∧
    initialProgress =
      { totalAttempts := 0, currentDay := 1, scores := [], history := [] } := by
  refine ⟨rfl, ?_, ?_, ?_, rfl, rfl⟩
  · intro h hs
    simp [normalizeItem, hs]
  · intro h b hs
    simp [normalizeItem, hs]
  · have hfun : ∀ h ∈ p.history,
        (!(normalizeItem h).synced) = (h.synced == some false) := by
      intro h _
      cases hs : h.synced with
      | none => simp [normalizeItem, hs]
      | some b => cases b <;> simp [normalizeItem, hs]
    calc unsyncedCount (loadProgress (some p)).1
        = ((p.history.map normalizeItem).filter (fun h => !h.synced)).length := rfl
      _ = ((p.history.filter (fun h => !(normalizeItem h).synced)).map normalizeItem).length := by
          rw [List.filter_map]
          rfl
      _ = (p.history.filter (fun h => h.synced == some false)).length := by
          rw [List.length_map]
          exact congrArg List.length (List.filter_congr hfun)

/-- Witness for claim C10 at a concrete stored blob: one item without a
`synced` flag (normalized to `true`) and one stored `synced = false`
(counted unsynced). -/
theorem claim_progress_load_witness :
    (loadProgress (some storedSample)).1.history =
      [{ mode := "chat", score := none, timestamp := "a", synced := true },
       { mode := "chat", score := none, timestamp := "b", synced := false }] ∧
    (normalizeItem { mode := "chat", score := none, timestamp := "a", synced := none }).synced = true ∧
    unsyncedCount (loadProgress (some storedSample)).1 = 1 ∧
    loadProgress none = (initialProgress, true) := by
  have h := claim_progress_load storedSample
  refine ⟨?_, h.2.1 _ rfl, ?_, h.2.2.2.2.1⟩
  · rw [h.1]
    rfl
  · rw [h.2.2.2.1]
    rfl
